import Mathlib

/-!
Shallow embedding of the nu_plugin_cer certificate-extraction plugin
(src/certificate.rs, src/command.rs, src/error.rs).

External library calls (the x509_parser PEM/DER parsers, the schannel PFX
store, chrono's timestamp conversion) are modelled as abstract inputs: a
parsed certificate carries the results those libraries would return, and the
repository's own control flow over those results is translated function by
function.  SHA-1, lowercase-hex rendering and UTF-8 decoding are implemented
concretely so everything evaluates.
-/

namespace Cer

/-- The subset of nu_protocol Value constructors the plugin touches.
`record` keeps its fields as an ordered association list, matching
nu_protocol Record push order.  `other` stands for any further Value
variant (int, bool, ...), which the command rejects. -/
inductive Value where
  | str (s : String)
  | binary (b : List Nat)
  | list (vs : List Value)
  | record (r : List (String × Value))
  | date (secs : Int) (nsecs : Nat)
  | other
deriving Repr

/-- The CerError enum of src/error.rs, one constructor per variant; the
wrapped low-level sources are dropped (nothing in the plugin inspects
them beyond Display). -/
inductive CerError where
  | Pem
  | Parse
  | CommonName
  | FriendlyName
  | Description
  | DescriptionUtf8
  | San
  | Timestamp
  | Pfx
  | Password
  | Der
  | Fingerprint
deriving Repr, DecidableEq

/-- One attribute value of an X509 name, as x509_parser exposes it:
`as_str` is the result of AttributeTypeAndValue::as_str (some when the
native encoding is a recognized textual ASN.1 string type), `as_slice`
the raw bytes. -/
structure AttrValue where
  as_str : Option String
  as_slice : List Nat
deriving Repr, DecidableEq

/-- An X509 name as the plugin reads it: the common-name attributes in
iteration order, and the rendered distinguished-name string
(X509Name to_string). -/
structure X509Name where
  common_names : List AttrValue
  render : String
deriving Repr, DecidableEq

/-- A general-name entry of the subject-alternative-name extension.
The plugin only distinguishes DNS names from everything else. -/
inductive GeneralName where
  | DNSName (s : String)
  | Other
deriving Repr, DecidableEq

/-- A parsed certificate, carrying the results of the x509_parser calls
the plugin makes: subject and issuer names, the not_after validity bound
as epoch seconds (ASN1Time timestamp), and the result of
subject_alternative_name() — error when the extension is malformed or
present more than once, ok none when absent, ok some when well-formed. -/
structure X509Certificate where
  subject : X509Name
  issuer : X509Name
  not_after : Int
  san : Except Unit (Option (List GeneralName))
deriving Repr

/-- A PEM block as x509_parser's Pem iterator yields it: `contents` is the
base64-decoded payload (the DER bytes) and `parse_x509` the result of
parsing those bytes as an X509 certificate. -/
structure Pem where
  contents : List Nat
  parse_x509 : Except Unit X509Certificate
deriving Repr

/-- A schannel CertContext handle from an imported PFX store: `from_der`
is the result of X509Certificate::from_der on the handle's DER
re-encoding, `friendly_name` and `fingerprint` the results of the two
store-property reads (the fingerprint is the raw SHA-1 digest bytes). -/
structure CertContext where
  from_der : Except Unit X509Certificate
  friendly_name : Except Unit String
  fingerprint : Except Unit (List Nat)
deriving Repr

/-! ### Lowercase hex rendering (data_encoding HEXLOWER / sha1_smol hexdigest) -/

def hexDigit (n : Nat) : Char :=
  if n < 10 then Char.ofNat (48 + n) else Char.ofNat (87 + n)

def hexByte (b : Nat) : List Char :=
  [hexDigit (b / 16 % 16), hexDigit (b % 16)]

def hexLower (bs : List Nat) : String :=
  String.mk (bs.map hexByte).flatten

/-! ### SHA-1 (sha1_smol), over byte lists, words as Nat mod 2^32 -/

def rotl32 (n x : Nat) : Nat :=
  ((x <<< n) ||| (x >>> (32 - n))) % 4294967296

/-- Big-endian byte rendering of `x` on `n` bytes. -/
def bytesBE : Nat → Nat → List Nat
  | 0, _ => []
  | n + 1, x => bytesBE n (x / 256) ++ [x % 256]

/-- Merge consecutive groups of four bytes into big-endian 32-bit words. -/
def toWords : List Nat → List Nat
  | b0 :: b1 :: b2 :: b3 :: rest =>
      (((b0 * 256 + b1) * 256 + b2) * 256 + b3) :: toWords rest
  | _ => []

/-- Split a word list into chunks of sixteen (fueled for structural
recursion; the fuel is an upper bound on the number of chunks). -/
def toBlocksFuel : Nat → List Nat → List (List Nat)
  | 0, _ => []
  | _, [] => []
  | fuel + 1, ws => ws.take 16 :: toBlocksFuel fuel (ws.drop 16)

def toBlocks (ws : List Nat) : List (List Nat) :=
  toBlocksFuel ws.length ws

/-- SHA-1 padding: append 0x80, zeros to 56 mod 64, and the bit length on
eight big-endian bytes. -/
def sha1_pad (msg : List Nat) : List Nat :=
  msg ++ 128 :: List.replicate ((119 - msg.length % 64) % 64) 0
      ++ bytesBE 8 (msg.length * 8)

def sha1_f (t b c d : Nat) : Nat :=
  if t < 20 then (b &&& c) ||| ((b ^^^ 4294967295) &&& d)
  else if t < 40 then b ^^^ c ^^^ d
  else if t < 60 then (b &&& c) ||| (b &&& d) ||| (c &&& d)
  else b ^^^ c ^^^ d

def sha1_k (t : Nat) : Nat :=
  if t < 20 then 1518500249
  else if t < 40 then 1859775393
  else if t < 60 then 2400959708
  else 3395469782

/-- Extend the 16-word schedule by `n` further words. -/
def expandW : Nat → List Nat → List Nat
  | 0, w => w
  | n + 1, w =>
      let i := w.length
      let wi := rotl32 1 ((w.getD (i - 3) 0) ^^^ (w.getD (i - 8) 0)
          ^^^ (w.getD (i - 14) 0) ^^^ (w.getD (i - 16) 0))
      expandW n (w ++ [wi])

def sha1_round (w : List Nat) (st : Nat × Nat × Nat × Nat × Nat) (t : Nat) :
    Nat × Nat × Nat × Nat × Nat :=
  let (a, b, c, d, e) := st
  let temp := (rotl32 5 a + sha1_f t b c d + e + sha1_k t + w.getD t 0) % 4294967296
  (temp, a, rotl32 30 b, c, d)

def sha1_block (h : Nat × Nat × Nat × Nat × Nat) (block : List Nat) :
    Nat × Nat × Nat × Nat × Nat :=
  let w := expandW 64 block
  let (h0, h1, h2, h3, h4) := h
  let (a, b, c, d, e) := (List.range 80).foldl (sha1_round w) (h0, h1, h2, h3, h4)
  ((h0 + a) % 4294967296, (h1 + b) % 4294967296, (h2 + c) % 4294967296,
   (h3 + d) % 4294967296, (h4 + e) % 4294967296)

def sha1_init : Nat × Nat × Nat × Nat × Nat :=
  (1732584193, 4023233417, 2562383102, 271733878, 3285377520)

def sha1_digest (msg : List Nat) : List Nat :=
  let (h0, h1, h2, h3, h4) :=
    (toBlocks (toWords (sha1_pad msg))).foldl sha1_block sha1_init
  bytesBE 4 h0 ++ bytesBE 4 h1 ++ bytesBE 4 h2 ++ bytesBE 4 h3 ++ bytesBE 4 h4

/-- Lowercase-hex SHA-1 digest, as sha1_smol Sha1 hexdigest renders it. -/
def sha1_hexdigest (msg : List Nat) : String :=
  hexLower (sha1_digest msg)

/-! ### UTF-8 decoding (std str from_utf8) -/

/-- Strict UTF-8 decoding of a byte list, none on any invalid sequence
(overlong forms, surrogates and values beyond U+10FFFF rejected, as in
Rust's str::from_utf8). -/
def utf8DecodeList : List Nat → Option (List Char)
  | [] => some []
  | b :: rest =>
    if b < 128 then (utf8DecodeList rest).map (fun cs => Char.ofNat b :: cs)
    else if b < 194 then none
    else if b < 224 then
      match rest with
      | b1 :: rest1 =>
        if 128 ≤ b1 ∧ b1 < 192 then
          (utf8DecodeList rest1).map
            (fun cs => Char.ofNat ((b - 192) * 64 + (b1 - 128)) :: cs)
        else none
      | [] => none
    else if b < 240 then
      match rest with
      | b1 :: b2 :: rest2 =>
        if ((b = 224 ∧ 160 ≤ b1 ∧ b1 < 192)
            ∨ (b = 237 ∧ 128 ≤ b1 ∧ b1 < 160)
            ∨ (b ≠ 224 ∧ b ≠ 237 ∧ 128 ≤ b1 ∧ b1 < 192))
            ∧ 128 ≤ b2 ∧ b2 < 192 then
          (utf8DecodeList rest2).map
            (fun cs => Char.ofNat ((b - 224) * 4096 + (b1 - 128) * 64 + (b2 - 128)) :: cs)
        else none
      | _ => none
    else if b < 245 then
      match rest with
      | b1 :: b2 :: b3 :: rest3 =>
        if ((b = 240 ∧ 144 ≤ b1 ∧ b1 < 192)
            ∨ (b = 244 ∧ 128 ≤ b1 ∧ b1 < 144)
            ∨ (b ≠ 240 ∧ b ≠ 244 ∧ 128 ≤ b1 ∧ b1 < 192))
            ∧ 128 ≤ b2 ∧ b2 < 192 ∧ 128 ≤ b3 ∧ b3 < 192 then
          (utf8DecodeList rest3).map
            (fun cs => Char.ofNat ((b - 240) * 262144 + (b1 - 128) * 4096
                + (b2 - 128) * 64 + (b3 - 128)) :: cs)
        else none
      | _ => none
    else none

def utf8Decode (bs : List Nat) : Option String :=
  (utf8DecodeList bs).map String.mk

/-! ### The certificate module (src/certificate.rs) -/

/-- Rust's Iterator collect into Result of Vec: apply `f` left to right and
stop at the first error. -/
def collectResults (f : α → Except ε β) : List α → Except ε (List β)
  | [] => Except.ok []
  | x :: xs => do
      let y ← f x
      let ys ← collectResults f xs
      pure (y :: ys)

/-- The closure body of parse_common_names for one common-name attribute:
use as_str when the native encoding is a recognized textual ASN.1 string
type, otherwise reinterpret the raw slice as UTF-8, failing with
CommonName on invalid UTF-8. -/
def common_name_str (cn : AttrValue) : Except CerError String :=
  match cn.as_str with
  | some s => Except.ok s
  | none =>
    match utf8Decode cn.as_slice with
    | some s => Except.ok s
    | none => Except.error CerError.CommonName

/-- The full closure of parse_common_names: the decoded string wrapped as
a Value. -/
def cn_value (cn : AttrValue) : Except CerError Value := do
  let s ← common_name_str cn
  pure (Value.str s)

def parse_common_names (name : X509Name) : Except CerError Value := do
  let common_names ← collectResults cn_value name.common_names
  pure (Value.list common_names)

def get_common_names (cer : X509Certificate) : Except CerError Value :=
  parse_common_names cer.subject

def get_ca_common_names (cer : X509Certificate) : Except CerError Value :=
  parse_common_names cer.issuer

def get_subject (cer : X509Certificate) : Value :=
  Value.str cer.subject.render

def get_ca_subject (cer : X509Certificate) : Value :=
  Value.str cer.issuer.render

/-- chrono's lowest representable epoch second (-262144-01-01T00:00:00). -/
def chronoMinTimestamp : Int := -8334632851200

/-- chrono's greatest representable epoch second (262143-12-31T23:59:59). -/
def chronoMaxTimestamp : Int := 8210298412799

/-- chrono DateTime::from_timestamp: some datetime (kept as seconds and
nanoseconds) when the epoch seconds are in chrono's representable range,
none otherwise. -/
def DateTime_from_timestamp (secs : Int) (nsecs : Nat) : Option (Int × Nat) :=
  if chronoMinTimestamp ≤ secs ∧ secs ≤ chronoMaxTimestamp ∧ nsecs < 2000000000
  then some (secs, nsecs) else none

def get_expiration (cer : X509Certificate) : Except CerError Value :=
  match DateTime_from_timestamp cer.not_after 0 with
  | some dt => Except.ok (Value.date dt.1 dt.2)
  | none => Except.error CerError.Timestamp

/-- The closure body of get_sans for one general-name entry: only DNS
names are handled, anything else is a San error. -/
def san_name_value (name : GeneralName) : Except CerError Value :=
  match name with
  | GeneralName.DNSName n => Except.ok (Value.str n)
  | GeneralName.Other => Except.error CerError.San

def get_sans (cer : X509Certificate) : Except CerError Value := do
  let sans ← match cer.san with
    | Except.error _ => Except.error CerError.San
    | Except.ok (some names) => collectResults san_name_value names
    | Except.ok none => pure []
  pure (Value.list sans)

def get_record (cer : X509Certificate) : Except CerError (List (String × Value)) := do
  let cn ← get_common_names cer
  let san ← get_sans cer
  let ca ← get_ca_common_names cer
  let expiration ← get_expiration cer
  pure [("cn", cn), ("subject", get_subject cer), ("san", san), ("ca", ca),
        ("ca_subject", get_ca_subject cer), ("expiration", expiration)]

def get_thumbprint (pem : Pem) : Value :=
  Value.str (sha1_hexdigest pem.contents)

/-- The body of the get_pem_values closure for one item of the PEM block
iterator. -/
def pem_block_value (pemR : Except Unit Pem) : Except CerError Value := do
  let pem ← pemR.mapError fun _ => CerError.Pem
  let cer ← pem.parse_x509.mapError fun _ => CerError.Parse
  let record ← get_record cer
  let record := record ++ [("thumbprint", get_thumbprint pem)]
  pure (Value.record record)

/-- get_pem_values over the block sequence produced by
Pem::iter_from_buffer on the input text. -/
def get_pem_values (blocks : List (Except Unit Pem)) : Except CerError (List Value) :=
  collectResults pem_block_value blocks

def get_pfx_friendly_name (cer : CertContext) : Except CerError String :=
  cer.friendly_name.mapError fun _ => CerError.FriendlyName

def get_pfx_thumbprint (cer : CertContext) : Except CerError String := do
  let thumbprint ← cer.fingerprint.mapError fun _ => CerError.Fingerprint
  pure (hexLower thumbprint)

/-- The body of the get_pfx_values closure for one certificate handle of
the imported store. -/
def pfx_cert_value (cer : CertContext) : Except CerError Value := do
  let pem ← cer.from_der.mapError fun _ => CerError.Der
  let record ← get_record pem
  let friendly ← get_pfx_friendly_name cer
  let record := record ++ [("friendly", Value.str friendly)]
  let thumbprint ← get_pfx_thumbprint cer
  let record := record ++ [("thumbprint", Value.str thumbprint)]
  pure (Value.record record)

/-- The password handling at the top of get_pfx_values: absent flag means
no password, a string flag is used as is, any other flag value is a
Password error (Value::as_str only succeeds on strings). -/
def resolve_password : Option Value → Except CerError (Option String)
  | none => Except.ok none
  | some (Value.str s) => Except.ok (some s)
  | some _ => Except.error CerError.Password

/-- get_pfx_values: `importPfx` stands for PfxImportOptions::import on the
input bytes with the given password configured (no_persist_key and
include_extended_properties set); its result is the certificate-handle
sequence of the opened store. -/
def get_pfx_values (importPfx : Option String → Except Unit (List CertContext))
    (password : Option Value) : Except CerError (List Value) := do
  let pw ← resolve_password password
  let store ← (importPfx pw).mapError fun _ => CerError.Pfx
  collectResults pfx_cert_value store

/-! ### The command (src/command.rs) -/

/-- The evaluated call flags the run method reads: has_flag("list") and
get_flag_value("password"). -/
structure EvaluatedCall where
  list : Bool
  password : Option Value

/-- The failures run can return (as LabeledError): a CerError converted
via From, the "no certificates in file" error, or the type-mismatch
error for non-string non-binary input. -/
inductive RunError where
  | cer (e : CerError)
  | noCertificates
  | typeMismatch
deriving Repr, DecidableEq

/-- SimplePluginCommand::run for the cer command.  `pemOf` stands for
Pem::iter_from_buffer on the input text, `pfxImport` for the PFX import
of the input bytes with the configured password. -/
def run (pemOf : String → List (Except Unit Pem))
    (pfxImport : List Nat → Option String → Except Unit (List CertContext))
    (call : EvaluatedCall) (input : Value) : Except RunError Value :=
  match input with
  | Value.str val =>
    match get_pem_values (pemOf val) with
    | Except.error e => Except.error (RunError.cer e)
    | Except.ok values =>
      if call.list then Except.ok (Value.list values)
      else
        match values.head? with
        | some v => Except.ok v
        | none => Except.error RunError.noCertificates
  | Value.binary val =>
    match get_pfx_values (pfxImport val) call.password with
    | Except.error e => Except.error (RunError.cer e)
    | Except.ok values =>
      if call.list then Except.ok (Value.list values)
      else
        match values.head? with
        | some v => Except.ok v
        | none => Except.error RunError.noCertificates
  | _ => Except.error RunError.typeMismatch

/-! ### Helper lemmas on the Except monad and collectResults -/

@[simp] theorem except_bind_ok (a : α) (f : α → Except ε β) :
    (Except.ok a >>= f : Except ε β) = f a := rfl

@[simp] theorem except_bind_error (e : ε) (f : α → Except ε β) :
    (Except.error e >>= f : Except ε β) = Except.error e := rfl

@[simp] theorem except_map_ok (g : α → β) (a : α) :
    (g <$> (Except.ok a : Except ε α)) = Except.ok (g a) := rfl

@[simp] theorem except_map_error (g : α → β) (e : ε) :
    (g <$> (Except.error e : Except ε α)) = Except.error e := rfl

@[simp] theorem except_mapError_ok (g : ε → ε1) (a : α) :
    (Except.ok a : Except ε α).mapError g = Except.ok a := rfl

@[simp] theorem except_mapError_error (g : ε → ε1) (e : ε) :
    (Except.error e : Except ε α).mapError g = Except.error (g e) := rfl

@[simp] theorem except_pure (a : α) : (pure a : Except ε α) = Except.ok a := rfl

theorem collectResults_error_mem {f : α → Except ε β} {l : List α} {e : ε}
    (h : collectResults f l = Except.error e) : ∃ x ∈ l, f x = Except.error e := by
  induction l with
  | nil => simp [collectResults] at h
  | cons x xs ih =>
    cases hfx : f x with
    | error e1 =>
      simp [collectResults, hfx, Except.bind] at h
      exact ⟨x, List.mem_cons_self x xs, by rw [hfx, h]⟩
    | ok y =>
      cases hxs : collectResults f xs with
      | error e1 =>
        simp [collectResults, hfx, hxs, Except.bind] at h
        obtain ⟨z, hz, hfz⟩ := ih (hxs.trans (by rw [h]))
        exact ⟨z, List.mem_cons_of_mem x hz, hfz⟩
      | ok ys => simp [collectResults, hfx, hxs, Except.bind] at h

theorem collectResults_error_of_exists {f : α → Except ε β} {l : List α}
    (h : ∃ x ∈ l, ∃ e, f x = Except.error e) :
    ∃ e, collectResults f l = Except.error e := by
  induction l with
  | nil => simp at h
  | cons x xs ih =>
    obtain ⟨z, hz, e, hfz⟩ := h
    cases hfx : f x with
    | error e1 => exact ⟨e1, by simp [collectResults, hfx, Except.bind]⟩
    | ok y =>
      rcases List.mem_cons.mp hz with rfl | hz1
      · rw [hfx] at hfz; cases hfz
      · obtain ⟨e2, h2⟩ := ih ⟨z, hz1, e, hfz⟩
        exact ⟨e2, by simp [collectResults, hfx, h2, Except.bind]⟩

theorem collectResults_ok_map {f : α → Except ε β} {g : α → β} {l : List α}
    (h : ∀ x ∈ l, f x = Except.ok (g x)) :
    collectResults f l = Except.ok (l.map g) := by
  induction l with
  | nil => simp [collectResults]
  | cons x xs ih =>
    have hx := h x (List.mem_cons_self x xs)
    have hxs := ih (fun z hz => h z (List.mem_cons_of_mem x hz))
    simp [collectResults, hx, hxs, Except.bind]

/-! ### Facts about the individual extractors -/

theorem common_name_str_error {cn : AttrValue} {e : CerError}
    (h : common_name_str cn = Except.error e) : e = CerError.CommonName := by
  unfold common_name_str at h
  cases hs : cn.as_str with
  | some s => rw [hs] at h; cases h
  | none =>
    rw [hs] at h
    cases hu : utf8Decode cn.as_slice with
    | some s => rw [hu] at h; cases h
    | none => rw [hu] at h; cases h; rfl

theorem cn_value_error {cn : AttrValue} {e : CerError}
    (h : cn_value cn = Except.error e) : common_name_str cn = Except.error e := by
  unfold cn_value at h
  cases hs : common_name_str cn with
  | error e1 => rw [hs] at h; simp at h; rw [h]
  | ok s => rw [hs] at h; simp at h

theorem parse_common_names_error_only {name : X509Name} {e : CerError}
    (h : parse_common_names name = Except.error e) : e = CerError.CommonName := by
  unfold parse_common_names at h
  cases hc : collectResults cn_value name.common_names with
  | error e1 =>
    rw [hc] at h; simp at h
    obtain ⟨x, _, hfx⟩ := collectResults_error_mem hc
    subst h
    exact common_name_str_error (cn_value_error hfx)
  | ok l => rw [hc] at h; simp at h

theorem san_dns_collect (ds : List String) :
    collectResults san_name_value (ds.map GeneralName.DNSName)
      = Except.ok (ds.map Value.str) := by
  induction ds with
  | nil => rfl
  | cons d ds ih => simp [collectResults, san_name_value, ih]

theorem san_other_collect {names : List GeneralName}
    (h : GeneralName.Other ∈ names) :
    collectResults san_name_value names = Except.error CerError.San := by
  induction names with
  | nil => simp at h
  | cons n ns ih =>
    cases n with
    | DNSName s =>
      rcases List.mem_cons.mp h with h1 | h1
      · cases h1
      · simp [collectResults, san_name_value, ih h1]
    | Other => simp [collectResults, san_name_value]

theorem san_collect_error_only {names : List GeneralName} {e : CerError}
    (h : collectResults san_name_value names = Except.error e) :
    e = CerError.San := by
  obtain ⟨x, _, hfx⟩ := collectResults_error_mem h
  cases x with
  | DNSName s => cases hfx
  | Other => cases hfx; rfl

theorem get_sans_error_only {cer : X509Certificate} {e : CerError}
    (h : get_sans cer = Except.error e) : e = CerError.San := by
  unfold get_sans at h
  cases hs : cer.san with
  | error u => rw [hs] at h; simp at h; exact h.symm
  | ok o =>
    cases o with
    | none => rw [hs] at h; simp at h
    | some names =>
      rw [hs] at h; simp only [] at h
      cases hc : collectResults san_name_value names with
      | error e1 =>
        rw [hc] at h; simp at h; subst h
        exact san_collect_error_only hc
      | ok l => rw [hc] at h; simp at h

theorem get_expiration_error_only {cer : X509Certificate} {e : CerError}
    (h : get_expiration cer = Except.error e) : e = CerError.Timestamp := by
  unfold get_expiration at h
  cases hd : DateTime_from_timestamp cer.not_after 0 with
  | some dt => rw [hd] at h; cases h
  | none => rw [hd] at h; cases h; rfl

theorem get_record_error_only {cer : X509Certificate} {e : CerError}
    (h : get_record cer = Except.error e) :
    e = CerError.CommonName ∨ e = CerError.San ∨ e = CerError.Timestamp := by
  unfold get_record at h
  cases h1 : get_common_names cer with
  | error e1 =>
    rw [h1] at h; simp at h; subst h
    exact Or.inl (parse_common_names_error_only h1)
  | ok cn =>
    rw [h1] at h; simp at h
    cases h2 : get_sans cer with
    | error e2 =>
      rw [h2] at h; simp at h; subst h
      exact Or.inr (Or.inl (get_sans_error_only h2))
    | ok san =>
      rw [h2] at h; simp at h
      cases h3 : get_ca_common_names cer with
      | error e3 =>
        rw [h3] at h; simp at h; subst h
        exact Or.inl (parse_common_names_error_only h3)
      | ok ca =>
        rw [h3] at h; simp at h
        cases h4 : get_expiration cer with
        | error e4 =>
          rw [h4] at h; simp at h; subst h
          exact Or.inr (Or.inr (get_expiration_error_only h4))
        | ok ex => rw [h4] at h; simp at h

theorem parse_common_names_ok_shape {name : X509Name} {v : Value}
    (h : parse_common_names name = Except.ok v) : ∃ l, v = Value.list l := by
  unfold parse_common_names at h
  cases hc : collectResults cn_value name.common_names with
  | error e => rw [hc] at h; simp at h
  | ok l => rw [hc] at h; simp at h; exact ⟨l, h.symm⟩

theorem get_sans_ok_shape {cer : X509Certificate} {v : Value}
    (h : get_sans cer = Except.ok v) : ∃ l, v = Value.list l := by
  unfold get_sans at h
  cases hs : cer.san with
  | error u => rw [hs] at h; simp at h
  | ok o =>
    cases o with
    | none => rw [hs] at h; simp at h; exact ⟨[], h.symm⟩
    | some names =>
      rw [hs] at h; simp only [] at h
      cases hc : collectResults san_name_value names with
      | error e => rw [hc] at h; simp at h
      | ok l => rw [hc] at h; simp at h; exact ⟨l, h.symm⟩

theorem get_expiration_ok_shape {cer : X509Certificate} {v : Value}
    (h : get_expiration cer = Except.ok v) : ∃ s, v = Value.date s 0 := by
  unfold get_expiration at h
  cases hd : DateTime_from_timestamp cer.not_after 0 with
  | none => rw [hd] at h; cases h
  | some dt =>
    rw [hd] at h
    have h2 : dt.2 = 0 := by
      unfold DateTime_from_timestamp at hd
      split at hd
      · cases hd; rfl
      · cases hd
    cases h
    exact ⟨dt.1, by rw [h2]⟩

theorem get_record_shape {cer : X509Certificate} {rec : List (String × Value)}
    (h : get_record cer = Except.ok rec) :
    ∃ cns subj sans cas casubj es, rec =
      [("cn", Value.list cns), ("subject", Value.str subj),
       ("san", Value.list sans), ("ca", Value.list cas),
       ("ca_subject", Value.str casubj), ("expiration", Value.date es 0)] := by
  unfold get_record at h
  cases h1 : get_common_names cer with
  | error e => rw [h1] at h; simp at h
  | ok cn =>
    rw [h1] at h
    cases h2 : get_sans cer with
    | error e => rw [h2] at h; simp at h
    | ok san =>
      rw [h2] at h
      cases h3 : get_ca_common_names cer with
      | error e => rw [h3] at h; simp at h
      | ok ca =>
        rw [h3] at h
        cases h4 : get_expiration cer with
        | error e => rw [h4] at h; simp at h
        | ok ex =>
          rw [h4] at h; simp at h
          have h1a : parse_common_names cer.subject = Except.ok cn := h1
          have h3a : parse_common_names cer.issuer = Except.ok ca := h3
          obtain ⟨cns, rfl⟩ := parse_common_names_ok_shape h1a
          obtain ⟨sansl, rfl⟩ := get_sans_ok_shape h2
          obtain ⟨cal, rfl⟩ := parse_common_names_ok_shape h3a
          obtain ⟨es, rfl⟩ := get_expiration_ok_shape h4
          exact ⟨cns, cer.subject.render, sansl, cal, cer.issuer.render, es,
            by rw [← h]; rfl⟩

/-! ### Claim theorems -/

/-- C2: SAN extraction has exactly three outcomes: extension absent gives
the empty sequence, a malformed or duplicated extension gives SanError,
a well-formed extension gives exactly the DNS-name entries in order when
every entry is a DNS name, and the whole extraction fails with SanError
as soon as any entry is not a DNS name. -/
theorem san_three_outcomes (cer : X509Certificate) :
    (cer.san = Except.ok none → get_sans cer = Except.ok (Value.list []))
    ∧ (∀ u, cer.san = Except.error u → get_sans cer = Except.error CerError.San)
    ∧ (∀ ds : List String, cer.san = Except.ok (some (ds.map GeneralName.DNSName)) →
        get_sans cer = Except.ok (Value.list (ds.map Value.str)))
    ∧ (∀ names : List GeneralName,
        cer.san = Except.ok (some names) → GeneralName.Other ∈ names →
        get_sans cer = Except.error CerError.San) := by
  refine ⟨?_, ?_, ?_, ?_⟩
  · intro h; simp [get_sans, h]
  · intro u h; simp [get_sans, h]
  · intro ds h; simp [get_sans, h, san_dns_collect]
  · intro names h hm; simp [get_sans, h, san_other_collect hm]

theorem san_three_outcomes_witness :
    get_sans ⟨⟨[], "S"⟩, ⟨[], "I"⟩, 0, Except.ok (some
        [GeneralName.DNSName "a", GeneralName.DNSName "b"])⟩
      = Except.ok (Value.list [Value.str "a", Value.str "b"]) :=
  (san_three_outcomes _).2.2.1 ["a", "b"] rfl

/-- C5: for PFX input, a non-string password flag value fails with the
Password error whatever the container opening would do, and a
failing container opening fails with PfxError, producing no record. -/
theorem pfx_password_and_import_errors
    (importPfx : Option String → Except Unit (List CertContext)) (pw : Option Value) :
    (∀ v, pw = some v → (∀ s, v ≠ Value.str s) →
      get_pfx_values importPfx pw = Except.error CerError.Password)
    ∧ (pw = none → importPfx none = Except.error () →
      get_pfx_values importPfx pw = Except.error CerError.Pfx)
    ∧ (∀ s, pw = some (Value.str s) → importPfx (some s) = Except.error () →
      get_pfx_values importPfx pw = Except.error CerError.Pfx) := by
  refine ⟨?_, ?_, ?_⟩
  · intro v hpw hv
    subst hpw
    have hr : resolve_password (some v) = Except.error CerError.Password := by
      cases v with
      | str s => exact absurd rfl (hv s)
      | binary b => rfl
      | list vs => rfl
      | record r => rfl
      | date a b => rfl
      | other => rfl
    simp [get_pfx_values, hr]
  · intro hpw him; subst hpw; simp [get_pfx_values, resolve_password, him]
  · intro s hpw him; subst hpw; simp [get_pfx_values, resolve_password, him]

theorem pfx_password_and_import_errors_witness :
    get_pfx_values (fun _ => Except.ok []) (some (Value.binary [1]))
      = Except.error CerError.Password
    ∧ get_pfx_values (fun _ => Except.error ()) none
      = Except.error CerError.Pfx :=
  ⟨(pfx_password_and_import_errors _ _).1 (Value.binary [1]) rfl
      (fun s h => by cases h),
   (pfx_password_and_import_errors _ _).2.1 rfl rfl⟩

/-- C7: a common-name attribute whose native encoding is a recognized
textual ASN.1 string type contributes its decoded string; any other
encoding is reinterpreted as UTF-8, and a UTF-8 decoding failure fails
the whole common-name extraction with CommonNameError rather than
skipping the attribute. -/
theorem common_name_decoding (name : X509Name) :
    (∀ cn s, cn.as_str = some s → common_name_str cn = Except.ok s)
    ∧ (∀ cn s, cn.as_str = none → utf8Decode cn.as_slice = some s →
        common_name_str cn = Except.ok s)
    ∧ (∀ cn, cn.as_str = none → utf8Decode cn.as_slice = none →
        common_name_str cn = Except.error CerError.CommonName)
    ∧ ((∃ cn ∈ name.common_names,
          common_name_str cn = Except.error CerError.CommonName) →
        parse_common_names name = Except.error CerError.CommonName) := by
  refine ⟨?_, ?_, ?_, ?_⟩
  · intro cn s h; simp [common_name_str, h]
  · intro cn s h hu; simp [common_name_str, h, hu]
  · intro cn h hu; simp [common_name_str, h, hu]
  · rintro ⟨cn, hm, hcn⟩
    have hv : cn_value cn = Except.error CerError.CommonName := by
      simp [cn_value, hcn]
    obtain ⟨e, he⟩ := collectResults_error_of_exists ⟨cn, hm, _, hv⟩
    obtain ⟨x, _, hfx⟩ := collectResults_error_mem he
    have hE : e = CerError.CommonName :=
      common_name_str_error (cn_value_error hfx)
    subst hE
    simp [parse_common_names, he]

theorem common_name_decoding_witness :
    parse_common_names ⟨[⟨none, [255]⟩], "S"⟩
      = Except.error CerError.CommonName :=
  (common_name_decoding _).2.2.2
    ⟨⟨none, [255]⟩, List.mem_singleton.mpr rfl,
     (common_name_decoding ⟨[⟨none, [255]⟩], "S"⟩).2.2.1 ⟨none, [255]⟩ rfl rfl⟩

/-- C8: the expiration field is the not-after validity bound converted
from epoch seconds to a timestamp with zero sub-second component, and an
epoch value outside chrono's representable range fails with
TimestampError. -/
theorem expiration_from_not_after (cer : X509Certificate) :
    (chronoMinTimestamp ≤ cer.not_after ∧ cer.not_after ≤ chronoMaxTimestamp →
      get_expiration cer = Except.ok (Value.date cer.not_after 0))
    ∧ (cer.not_after < chronoMinTimestamp ∨ chronoMaxTimestamp < cer.not_after →
      get_expiration cer = Except.error CerError.Timestamp) := by
  constructor
  · rintro ⟨h1, h2⟩
    have hc : chronoMinTimestamp ≤ cer.not_after
        ∧ cer.not_after ≤ chronoMaxTimestamp ∧ (0 : Nat) < 2000000000 :=
      ⟨h1, h2, by norm_num⟩
    simp [get_expiration, DateTime_from_timestamp, hc]
  · intro h
    have hc : ¬(chronoMinTimestamp ≤ cer.not_after
        ∧ cer.not_after ≤ chronoMaxTimestamp) := by
      unfold chronoMinTimestamp chronoMaxTimestamp at h ⊢
      rcases h with h | h <;> omega
    simp [get_expiration, DateTime_from_timestamp, hc]

theorem expiration_from_not_after_witness :
    get_expiration ⟨⟨[], "S"⟩, ⟨[], "I"⟩, 1700000000, Except.ok none⟩
      = Except.ok (Value.date 1700000000 0)
    ∧ get_expiration ⟨⟨[], "S"⟩, ⟨[], "I"⟩, 9000000000000, Except.ok none⟩
      = Except.error CerError.Timestamp :=
  ⟨(expiration_from_not_after _).1 (by norm_num [chronoMinTimestamp, chronoMaxTimestamp]),
   (expiration_from_not_after _).2 (Or.inr (by norm_num [chronoMaxTimestamp]))⟩

/-- C6: every successfully produced certificate record has the fields cn,
subject, san, ca, ca_subject, expiration (and thumbprint) present, with
subject, ca_subject and thumbprint as strings, expiration a timestamp,
and cn, ca, san as (possibly empty) sequences; PFX-sourced records
additionally carry a friendly field. -/
theorem record_field_shape :
    (∀ (b : Except Unit Pem) (v : Value), pem_block_value b = Except.ok v →
      ∃ cns subj sans cas casubj es tp, v = Value.record
        [("cn", Value.list cns), ("subject", Value.str subj),
         ("san", Value.list sans), ("ca", Value.list cas),
         ("ca_subject", Value.str casubj), ("expiration", Value.date es 0),
         ("thumbprint", Value.str tp)])
    ∧ (∀ (c : CertContext) (v : Value), pfx_cert_value c = Except.ok v →
      ∃ cns subj sans cas casubj es fr tp, v = Value.record
        [("cn", Value.list cns), ("subject", Value.str subj),
         ("san", Value.list sans), ("ca", Value.list cas),
         ("ca_subject", Value.str casubj), ("expiration", Value.date es 0),
         ("friendly", Value.str fr), ("thumbprint", Value.str tp)]) := by
  constructor
  · intro b v h
    unfold pem_block_value at h
    cases b with
    | error u => simp at h
    | ok pem =>
      simp only [except_mapError_ok, except_bind_ok] at h
      cases hp : pem.parse_x509 with
      | error u => rw [hp] at h; simp at h
      | ok cer =>
        rw [hp] at h
        simp only [except_mapError_ok, except_bind_ok] at h
        cases hr : get_record cer with
        | error e => rw [hr] at h; simp at h
        | ok rec =>
          rw [hr] at h; simp at h
          obtain ⟨cns, subj, sansl, cal, casubj, es, hrec⟩ := get_record_shape hr
          subst hrec
          exact ⟨cns, subj, sansl, cal, casubj, es, sha1_hexdigest pem.contents,
            by rw [← h]; rfl⟩
  · intro c v h
    unfold pfx_cert_value at h
    cases hd : c.from_der with
    | error u => rw [hd] at h; simp at h
    | ok cer =>
      rw [hd] at h
      simp only [except_mapError_ok, except_bind_ok] at h
      cases hr : get_record cer with
      | error e => rw [hr] at h; simp at h
      | ok rec =>
        rw [hr] at h
        simp only [except_bind_ok] at h
        cases hf : c.friendly_name with
        | error u => simp [get_pfx_friendly_name, hf] at h
        | ok fr =>
          simp only [get_pfx_friendly_name, hf, except_mapError_ok,
            except_bind_ok] at h
          cases hfp : c.fingerprint with
          | error u => simp [get_pfx_thumbprint, hfp] at h
          | ok fp =>
            simp [get_pfx_thumbprint, hfp] at h
            obtain ⟨cns, subj, sansl, cal, casubj, es, hrec⟩ := get_record_shape hr
            subst hrec
            exact ⟨cns, subj, sansl, cal, casubj, es, fr, hexLower fp,
              by rw [← h]; rfl⟩

set_option maxRecDepth 20000 in
theorem record_field_shape_witness :
    (∃ cns subj sans cas casubj es tp, Value.record
        [("cn", Value.list []), ("subject", Value.str "S"),
         ("san", Value.list []), ("ca", Value.list []),
         ("ca_subject", Value.str "I"), ("expiration", Value.date 0 0),
         ("thumbprint", Value.str "da39a3ee5e6b4b0d3255bfef95601890afd80709")]
      = Value.record
        [("cn", Value.list cns), ("subject", Value.str subj),
         ("san", Value.list sans), ("ca", Value.list cas),
         ("ca_subject", Value.str casubj), ("expiration", Value.date es 0),
         ("thumbprint", Value.str tp)])
    ∧ (∃ cns subj sans cas casubj es fr tp, Value.record
        [("cn", Value.list []), ("subject", Value.str "S"),
         ("san", Value.list []), ("ca", Value.list []),
         ("ca_subject", Value.str "I"), ("expiration", Value.date 0 0),
         ("friendly", Value.str "fn"), ("thumbprint", Value.str "")]
      = Value.record
        [("cn", Value.list cns), ("subject", Value.str subj),
         ("san", Value.list sans), ("ca", Value.list cas),
         ("ca_subject", Value.str casubj), ("expiration", Value.date es 0),
         ("friendly", Value.str fr), ("thumbprint", Value.str tp)]) :=
  ⟨record_field_shape.1
      (Except.ok ⟨[], Except.ok ⟨⟨[], "S"⟩, ⟨[], "I"⟩, 0, Except.ok none⟩⟩) _ rfl,
   record_field_shape.2
      ⟨Except.ok ⟨⟨[], "S"⟩, ⟨[], "I"⟩, 0, Except.ok none⟩,
       Except.ok "fn", Except.ok []⟩ _ rfl⟩

/-- C3: on either multi-certificate path, if extraction of any one
certificate fails then the whole call returns an error — there is no
partial-results output for the certificates that succeeded. -/
theorem batch_abort_on_any_failure :
    (∀ blocks : List (Except Unit Pem),
      (∃ b ∈ blocks, ∃ e, pem_block_value b = Except.error e) →
      ∃ e, get_pem_values blocks = Except.error e)
    ∧ (∀ (importPfx : Option String → Except Unit (List CertContext))
        (pw : Option Value) (pws : Option String) (store : List CertContext),
        resolve_password pw = Except.ok pws →
        importPfx pws = Except.ok store →
        (∃ c ∈ store, ∃ e, pfx_cert_value c = Except.error e) →
        ∃ e, get_pfx_values importPfx pw = Except.error e) := by
  constructor
  · intro blocks h
    exact collectResults_error_of_exists h
  · intro importPfx pw pws store h1 h2 h3
    obtain ⟨e, he⟩ := collectResults_error_of_exists h3
    exact ⟨e, by simp [get_pfx_values, h1, h2, he]⟩

theorem batch_abort_on_any_failure_witness :
    (∃ e, get_pem_values
        [Except.ok ⟨[], Except.ok ⟨⟨[], "S"⟩, ⟨[], "I"⟩, 0, Except.ok none⟩⟩,
         Except.error ()] = Except.error e)
    ∧ (∃ e, get_pfx_values
        (fun _ => Except.ok [⟨Except.error (), Except.ok "fn", Except.ok []⟩])
        none = Except.error e) :=
  ⟨batch_abort_on_any_failure.1 _
      ⟨Except.error (), by simp, CerError.Pem, rfl⟩,
   batch_abort_on_any_failure.2 _ none none
      [⟨Except.error (), Except.ok "fn", Except.ok []⟩] rfl rfl
      ⟨⟨Except.error (), Except.ok "fn", Except.ok []⟩, by simp,
       CerError.Der, rfl⟩⟩

/-- C9: with the list flag unset the whole input is still decoded before
the first record is returned — a PEM input whose first blocks are
well-formed but with a malformed later block makes the call fail instead
of returning the first record. -/
theorem first_only_still_decodes_all
    (pemOf : String → List (Except Unit Pem))
    (pfxImport : List Nat → Option String → Except Unit (List CertContext))
    (pw : Option Value) (val : String) (good : List (Except Unit Pem))
    (bad : Except Unit Pem) (rest : List (Except Unit Pem))
    (hblocks : pemOf val = good ++ bad :: rest)
    (_hgood : ∀ b ∈ good, ∃ v, pem_block_value b = Except.ok v)
    (hbad : ∃ e, pem_block_value bad = Except.error e) :
    ∃ e, run pemOf pfxImport ⟨false, pw⟩ (Value.str val) =
      Except.error (RunError.cer e) := by
  have hmem : bad ∈ good ++ bad :: rest :=
    List.mem_append_right _ (List.mem_cons_self _ _)
  obtain ⟨e, he⟩ := collectResults_error_of_exists ⟨bad, hmem, hbad⟩
  refine ⟨e, ?_⟩
  simp only [run, hblocks]
  rw [show get_pem_values (good ++ bad :: rest) = Except.error e from he]

set_option maxRecDepth 20000 in
theorem first_only_still_decodes_all_witness :
    ∃ e, run
      (fun _ => [Except.ok ⟨[], Except.ok ⟨⟨[], "S"⟩, ⟨[], "I"⟩, 0, Except.ok none⟩⟩,
                 Except.error ()])
      (fun _ _ => Except.error ()) ⟨false, none⟩ (Value.str "input")
      = Except.error (RunError.cer e) :=
  first_only_still_decodes_all _ _ none "input"
    [Except.ok ⟨[], Except.ok ⟨⟨[], "S"⟩, ⟨[], "I"⟩, 0, Except.ok none⟩⟩]
    (Except.error ()) [] rfl
    (by intro b hb
        simp at hb
        subst hb
        exact ⟨_, rfl⟩)
    ⟨CerError.Pem, rfl⟩

/-- C4: once decoding succeeds, the list flag returns every decoded
record as a sequence; with the flag unset only the first record is
returned, and an empty decoded sequence fails with the
"no certificates in file" error. -/
theorem list_flag_output_shape
    (pemOf : String → List (Except Unit Pem))
    (pfxImport : List Nat → Option String → Except Unit (List CertContext))
    (lst : Bool) (pw : Option Value) (val : String) (bin : List Nat)
    (values : List Value) :
    (get_pem_values (pemOf val) = Except.ok values →
      run pemOf pfxImport ⟨lst, pw⟩ (Value.str val) =
        (if lst then Except.ok (Value.list values)
         else match values with
           | v :: _ => Except.ok v
           | [] => Except.error RunError.noCertificates))
    ∧ (get_pfx_values (pfxImport bin) pw = Except.ok values →
      run pemOf pfxImport ⟨lst, pw⟩ (Value.binary bin) =
        (if lst then Except.ok (Value.list values)
         else match values with
           | v :: _ => Except.ok v
           | [] => Except.error RunError.noCertificates)) := by
  constructor
  · intro h
    simp only [run, h]
    cases lst with
    | true => simp
    | false => cases values with
      | nil => simp
      | cons v vs => simp
  · intro h
    simp only [run, h]
    cases lst with
    | true => simp
    | false => cases values with
      | nil => simp
      | cons v vs => simp

theorem list_flag_output_shape_witness :
    run (fun _ => []) (fun _ _ => Except.error ()) ⟨false, none⟩ (Value.str "")
      = Except.error RunError.noCertificates
    ∧ run (fun _ => []) (fun _ _ => Except.ok []) ⟨true, none⟩ (Value.binary [])
      = Except.ok (Value.list []) :=
  ⟨(list_flag_output_shape (fun _ => []) (fun _ _ => Except.error ())
      false none "" [] []).1 rfl,
   (list_flag_output_shape (fun _ => []) (fun _ _ => Except.ok [])
      true none "" [] []).2 rfl⟩

theorem pem_blocks_ok_map (items : List (Pem × List (String × Value)))
    (h : ∀ pr ∈ items, ∃ cert, pr.1.parse_x509 = Except.ok cert ∧
        get_record cert = Except.ok pr.2) :
    get_pem_values (items.map (fun pr => Except.ok pr.1)) =
      Except.ok (items.map (fun pr =>
        Value.record (pr.2 ++ [("thumbprint", get_thumbprint pr.1)]))) := by
  induction items with
  | nil => rfl
  | cons pr prs ih =>
    obtain ⟨cert, hp, hr⟩ := h pr (List.mem_cons_self _ _)
    have ihh := ih (fun q hq => h q (List.mem_cons_of_mem _ hq))
    simp only [get_pem_values, List.map_cons] at ihh ⊢
    simp only [collectResults, pem_block_value, except_mapError_ok,
      except_bind_ok, hp, hr, except_pure, ihh]

/-- C1: for PEM input consisting of N well-formed certificate blocks,
list-mode output is a sequence of exactly N records in document order,
each record's thumbprint equal to the lowercase-hex SHA-1 digest of that
block's base64-decoded payload bytes. -/
theorem pem_list_mode_count_and_thumbprints
    (pemOf : String → List (Except Unit Pem))
    (pfxImport : List Nat → Option String → Except Unit (List CertContext))
    (pw : Option Value) (val : String)
    (items : List (Pem × List (String × Value)))
    (hblocks : pemOf val = items.map (fun pr => Except.ok pr.1))
    (h : ∀ pr ∈ items, ∃ cert, pr.1.parse_x509 = Except.ok cert ∧
        get_record cert = Except.ok pr.2) :
    run pemOf pfxImport ⟨true, pw⟩ (Value.str val) =
      Except.ok (Value.list (items.map (fun pr =>
        Value.record (pr.2 ++
          [("thumbprint", Value.str (sha1_hexdigest pr.1.contents))]))))
    ∧ (items.map (fun pr =>
        Value.record (pr.2 ++
          [("thumbprint", Value.str (sha1_hexdigest pr.1.contents))]))).length
      = items.length := by
  refine ⟨?_, by simp⟩
  have hmap := pem_blocks_ok_map items h
  simp only [get_thumbprint] at hmap
  simp only [run, hblocks, hmap]
  simp

set_option maxRecDepth 20000 in
theorem pem_list_mode_count_and_thumbprints_witness :
    run (fun _ => [Except.ok ⟨[], Except.ok ⟨⟨[], "S"⟩, ⟨[], "I"⟩, 0, Except.ok none⟩⟩])
        (fun _ _ => Except.error ()) ⟨true, none⟩ (Value.str "pem")
      = Except.ok (Value.list [Value.record
          [("cn", Value.list []), ("subject", Value.str "S"),
           ("san", Value.list []), ("ca", Value.list []),
           ("ca_subject", Value.str "I"), ("expiration", Value.date 0 0),
           ("thumbprint", Value.str "da39a3ee5e6b4b0d3255bfef95601890afd80709")]]) :=
  (pem_list_mode_count_and_thumbprints _ _ none "pem"
    [(⟨[], Except.ok ⟨⟨[], "S"⟩, ⟨[], "I"⟩, 0, Except.ok none⟩⟩,
      [("cn", Value.list []), ("subject", Value.str "S"), ("san", Value.list []),
       ("ca", Value.list []), ("ca_subject", Value.str "I"),
       ("expiration", Value.date 0 0)])]
    rfl
    (by rintro pr hpr
        simp only [List.mem_singleton] at hpr
        subst hpr
        exact ⟨⟨⟨[], "S"⟩, ⟨[], "I"⟩, 0, Except.ok none⟩, rfl, rfl⟩)).1

theorem resolve_password_error {pw : Option Value} {e : CerError}
    (h : resolve_password pw = Except.error e) : e = CerError.Password := by
  cases pw with
  | none => simp [resolve_password] at h
  | some v =>
    cases v with
    | str s => simp [resolve_password] at h
    | binary b => simp [resolve_password] at h; exact h.symm
    | list vs => simp [resolve_password] at h; exact h.symm
    | record r => simp [resolve_password] at h; exact h.symm
    | date a b => simp [resolve_password] at h; exact h.symm
    | other => simp [resolve_password] at h; exact h.symm

theorem pem_block_value_error {b : Except Unit Pem} {e : CerError}
    (h : pem_block_value b = Except.error e) :
    e = CerError.Pem ∨ e = CerError.Parse ∨ e = CerError.CommonName
    ∨ e = CerError.San ∨ e = CerError.Timestamp := by
  unfold pem_block_value at h
  cases b with
  | error u => simp at h; exact Or.inl h.symm
  | ok pem =>
    simp only [except_mapError_ok, except_bind_ok] at h
    cases hp : pem.parse_x509 with
    | error u => rw [hp] at h; simp at h; exact Or.inr (Or.inl h.symm)
    | ok cer =>
      rw [hp] at h; simp only [except_mapError_ok, except_bind_ok] at h
      cases hr : get_record cer with
      | error e1 =>
        rw [hr] at h; simp at h; subst h
        rcases get_record_error_only hr with h1 | h1 | h1
        · exact Or.inr (Or.inr (Or.inl h1))
        · exact Or.inr (Or.inr (Or.inr (Or.inl h1)))
        · exact Or.inr (Or.inr (Or.inr (Or.inr h1)))
      | ok rec => rw [hr] at h; simp at h

theorem pfx_cert_value_error {c : CertContext} {e : CerError}
    (h : pfx_cert_value c = Except.error e) :
    e = CerError.Der ∨ e = CerError.CommonName ∨ e = CerError.San
    ∨ e = CerError.Timestamp ∨ e = CerError.FriendlyName
    ∨ e = CerError.Fingerprint := by
  unfold pfx_cert_value at h
  cases hd : c.from_der with
  | error u => rw [hd] at h; simp at h; exact Or.inl h.symm
  | ok cer =>
    rw [hd] at h; simp only [except_mapError_ok, except_bind_ok] at h
    cases hr : get_record cer with
    | error e1 =>
      rw [hr] at h; simp at h; subst h
      rcases get_record_error_only hr with h1 | h1 | h1
      · exact Or.inr (Or.inl h1)
      · exact Or.inr (Or.inr (Or.inl h1))
      · exact Or.inr (Or.inr (Or.inr (Or.inl h1)))
    | ok rec =>
      rw [hr] at h; simp only [except_bind_ok] at h
      cases hf : c.friendly_name with
      | error u =>
        simp [get_pfx_friendly_name, hf] at h
        exact Or.inr (Or.inr (Or.inr (Or.inr (Or.inl h.symm))))
      | ok fr =>
        simp only [get_pfx_friendly_name, hf, except_mapError_ok,
          except_bind_ok] at h
        cases hfp : c.fingerprint with
        | error u =>
          simp [get_pfx_thumbprint, hfp] at h
          exact Or.inr (Or.inr (Or.inr (Or.inr (Or.inr h.symm))))
        | ok fp => simp [get_pfx_thumbprint, hfp] at h

theorem get_pem_values_error_kinds {blocks : List (Except Unit Pem)} {e : CerError}
    (h : get_pem_values blocks = Except.error e) :
    e = CerError.Pem ∨ e = CerError.Parse ∨ e = CerError.CommonName
    ∨ e = CerError.San ∨ e = CerError.Timestamp := by
  have h1 : collectResults pem_block_value blocks = Except.error e := h
  obtain ⟨b, _, hb⟩ := collectResults_error_mem h1
  exact pem_block_value_error hb

theorem get_pfx_values_error_kinds
    {importPfx : Option String → Except Unit (List CertContext)}
    {pw : Option Value} {e : CerError}
    (h : get_pfx_values importPfx pw = Except.error e) :
    e = CerError.Password ∨ e = CerError.Pfx ∨ e = CerError.Der
    ∨ e = CerError.CommonName ∨ e = CerError.San ∨ e = CerError.Timestamp
    ∨ e = CerError.FriendlyName ∨ e = CerError.Fingerprint := by
  unfold get_pfx_values at h
  cases hp : resolve_password pw with
  | error e1 =>
    rw [hp] at h; simp at h; subst h
    exact Or.inl (resolve_password_error hp)
  | ok pws =>
    rw [hp] at h; simp only [except_bind_ok] at h
    cases hi : importPfx pws with
    | error u => rw [hi] at h; simp at h; exact Or.inr (Or.inl h.symm)
    | ok store =>
      rw [hi] at h; simp only [except_mapError_ok, except_bind_ok] at h
      obtain ⟨c, _, hc⟩ := collectResults_error_mem h
      rcases pfx_cert_value_error hc with h1 | h1 | h1 | h1 | h1 | h1
      · exact Or.inr (Or.inr (Or.inl h1))
      · exact Or.inr (Or.inr (Or.inr (Or.inl h1)))
      · exact Or.inr (Or.inr (Or.inr (Or.inr (Or.inl h1))))
      · exact Or.inr (Or.inr (Or.inr (Or.inr (Or.inr (Or.inl h1)))))
      · exact Or.inr (Or.inr (Or.inr (Or.inr (Or.inr (Or.inr (Or.inl h1))))))
      · exact Or.inr (Or.inr (Or.inr (Or.inr (Or.inr (Or.inr (Or.inr h1))))))

/-- C10: the Description and DescriptionUtf8 error variants are never
produced — every CerError the run method returns is one of the kinds
Pem, Parse, CommonName, FriendlyName, San, Timestamp, Pfx, Password,
Der or Fingerprint. -/
theorem error_kinds_produced
    (pemOf : String → List (Except Unit Pem))
    (pfxImport : List Nat → Option String → Except Unit (List CertContext))
    (call : EvaluatedCall) (input : Value) (e : CerError)
    (h : run pemOf pfxImport call input = Except.error (RunError.cer e)) :
    e = CerError.Pem ∨ e = CerError.Parse ∨ e = CerError.CommonName
    ∨ e = CerError.FriendlyName ∨ e = CerError.San ∨ e = CerError.Timestamp
    ∨ e = CerError.Pfx ∨ e = CerError.Password ∨ e = CerError.Der
    ∨ e = CerError.Fingerprint := by
  obtain ⟨lst, pw⟩ := call
  cases input with
  | str val =>
    unfold run at h
    simp only [] at h
    cases hg : get_pem_values (pemOf val) with
    | error e1 =>
      rw [hg] at h; simp at h; subst h
      rcases get_pem_values_error_kinds hg with h1 | h1 | h1 | h1 | h1 <;>
        subst h1 <;> tauto
    | ok values =>
      rw [hg] at h; simp only [] at h
      cases lst with
      | true => simp at h
      | false =>
        simp only [Bool.false_eq_true, if_false] at h
        cases hv : values.head? with
        | some v => rw [hv] at h; simp at h
        | none => rw [hv] at h; simp at h
  | binary bin =>
    unfold run at h
    simp only [] at h
    cases hg : get_pfx_values (pfxImport bin) pw with
    | error e1 =>
      rw [hg] at h; simp at h; subst h
      rcases get_pfx_values_error_kinds hg with
        h1 | h1 | h1 | h1 | h1 | h1 | h1 | h1 <;> subst h1 <;> tauto
    | ok values =>
      rw [hg] at h; simp only [] at h
      cases lst with
      | true => simp at h
      | false =>
        simp only [Bool.false_eq_true, if_false] at h
        cases hv : values.head? with
        | some v => rw [hv] at h; simp at h
        | none => rw [hv] at h; simp at h
  | list vs => simp [run] at h
  | record r => simp [run] at h
  | date a b => simp [run] at h
  | other => simp [run] at h

theorem error_kinds_produced_witness :
    run (fun _ => [Except.error ()]) (fun _ _ => Except.error ())
        ⟨true, none⟩ (Value.str "") = Except.error (RunError.cer CerError.Pem)
    ∧ (CerError.Pem = CerError.Pem ∨ CerError.Pem = CerError.Parse
      ∨ CerError.Pem = CerError.CommonName ∨ CerError.Pem = CerError.FriendlyName
      ∨ CerError.Pem = CerError.San ∨ CerError.Pem = CerError.Timestamp
      ∨ CerError.Pem = CerError.Pfx ∨ CerError.Pem = CerError.Password
      ∨ CerError.Pem = CerError.Der ∨ CerError.Pem = CerError.Fingerprint) :=
  ⟨rfl, error_kinds_produced (fun _ => [Except.error ()]) (fun _ _ => Except.error ())
      ⟨true, none⟩ (Value.str "") CerError.Pem rfl⟩

end Cer
